import Mathlib

/-
  Shallow embedding of the ELI v10.0 reference interpreter
  (class ALPHA_2 in src/src/alpha_i2.py).

  Modelling conventions:
  * Python ints are arbitrary precision, so stack integers are `Int`.
  * Python lists on the operand stack are arrays; no opcode mutates a
    list in place and `S`/`B` deep-copy, so value semantics is faithful.
  * The operand stack is a `List Value` with the HEAD as the TOP of the
    stack (Python appends/pops at the right end of `self.stack`).
  * `self.memory` is a dict; we model it as an association list updated
    by prepending, looked up by first match.  Using an unhashable key
    (a Python list) raises an uncaught TypeError, modelled as `crash`.
  * An opcode returning False is a runtime error (`err`), carrying the
    state as mutated so far (the Python object keeps those mutations and
    the diagnostic prints the mutated stack).  An uncaught Python
    exception is `crash` (the process dies; no state is observable).
  * `print` output is modelled as a list of events; `input()` for `I`/`K`
    is modelled as a list of `Option Int` responses (`none` = a line that
    fails parsing / length check, end of list = EOF).
-/

namespace ELI

inductive Value where
  | VInt : Int → Value
  | VArr : List Value → Value

open Value

mutual

def Value.decEq : (a b : Value) → Decidable (a = b)
  | VInt x, VInt y =>
    if h : x = y then .isTrue (by rw [h]) else .isFalse (by simp [h])
  | VInt _, VArr _ => .isFalse (by simp)
  | VArr _, VInt _ => .isFalse (by simp)
  | VArr xs, VArr ys =>
    match Value.decEqList xs ys with
    | .isTrue h => .isTrue (by rw [h])
    | .isFalse h => .isFalse (by simp [h])

def Value.decEqList : (xs ys : List Value) → Decidable (xs = ys)
  | [], [] => .isTrue rfl
  | [], _ :: _ => .isFalse (by simp)
  | _ :: _, [] => .isFalse (by simp)
  | x :: xs, y :: ys =>
    match Value.decEq x y, Value.decEqList xs ys with
    | .isTrue h1, .isTrue h2 => .isTrue (by rw [h1, h2])
    | .isFalse h1, _ => .isFalse (by simp [h1])
    | _, .isFalse h2 => .isFalse (by simp [h2])

end

instance : DecidableEq Value := Value.decEq

mutual

def Value.toStr : Value → String
  | VInt n => toString n
  | VArr l => "[" ++ Value.toStrList l ++ "]"

def Value.toStrList : List Value → String
  | [] => ""
  | [v] => Value.toStr v
  | v :: rest => Value.toStr v ++ ", " ++ Value.toStrList rest

end

instance : Repr Value := ⟨fun v _ => Std.Format.text (Value.toStr v)⟩

inductive Token where
  | LIT : Int → Token
  | BUFFER : List Int → Token
  | OP : Char → Token
deriving DecidableEq, Repr

inductive OutEvent where
  | outInt : Int → OutEvent
  | outChar : Int → OutEvent
deriving DecidableEq, Repr

abbrev Memory := List (Int × Value)

def mget (m : Memory) (a : Int) : Option Value :=
  (m.find? (fun p => p.1 == a)).map Prod.snd

def mset (m : Memory) (a : Int) (v : Value) : Memory :=
  (a, v) :: m

structure VMState where
  stack : List Value
  memory : Memory
  call_stack : List (Int × Nat)
  pc : Int
  out : List OutEvent
  inInt : List (Option Int)
  inChar : List (Option Int)
deriving DecidableEq, Repr

/-- Result of running one opcode method: `ok` = returned True,
`err` = returned False (runtime error), `crash` = uncaught exception. -/
inductive OpResult where
  | ok : VMState → OpResult
  | err : VMState → OpResult
  | crash : OpResult
deriving DecidableEq, Repr

/-- Result of the lambda passed to `_binop`: a value, Python `False`,
or an uncaught TypeError. -/
inductive BRes where
  | val : Value → BRes
  | fail : BRes
  | crash : BRes
deriving DecidableEq, Repr

/-- `_binop` from alpha_i2.py: underflow check, pop b then a, apply the
function; `False` from the function is a runtime error (with both
operands already popped), otherwise push the result. -/
def _binop (f : Value → Value → BRes) (s : VMState) : OpResult :=
  match s.stack with
  | b :: a :: rest =>
    match f a b with
    | .val v => .ok { s with stack := v :: rest }
    | .fail => .err { s with stack := rest }
    | .crash => .crash
  | _ => .err s

/-- Python `a + b` on stack values: int addition, list concatenation,
mixed operands raise TypeError. -/
def pyAdd : Value → Value → BRes
  | VInt x, VInt y => .val (VInt (x + y))
  | VArr x, VArr y => .val (VArr (x ++ y))
  | _, _ => .crash

/-- Python `a - b`: ints only; any list operand raises TypeError. -/
def pySub : Value → Value → BRes
  | VInt x, VInt y => .val (VInt (x - y))
  | _, _ => .crash

/-- Python `a * b`: int product; `list * int` (either order) replicates
the list (non-positive count gives the empty list); `list * list`
raises TypeError. -/
def pyMul : Value → Value → BRes
  | VInt x, VInt y => .val (VInt (x * y))
  | VArr l, VInt n => .val (VArr (List.flatten (List.replicate n.toNat l)))
  | VInt n, VArr l => .val (VArr (List.flatten (List.replicate n.toNat l)))
  | VArr _, VArr _ => .crash

mutual

/-- Python ordering comparison between stack values: `none` models a
TypeError (int compared against list). Lists compare lexicographically,
recursing through `==` then `<` on elements exactly as CPython does. -/
def valueCmp : Value → Value → Option Ordering
  | VInt a, VInt b => some (compare a b)
  | VArr a, VArr b => valueCmpList a b
  | _, _ => none

def valueCmpList : List Value → List Value → Option Ordering
  | [], [] => some .eq
  | [], _ :: _ => some .lt
  | _ :: _, [] => some .gt
  | x :: xs, y :: ys =>
    match valueCmp x y with
    | some .eq => valueCmpList xs ys
    | r => r

end

namespace ALPHA_2

def max_call_depth : Nat := 1000

def op_add (s : VMState) : OpResult := _binop pyAdd s

def op_sub (s : VMState) : OpResult := _binop pySub s

def op_mul (s : VMState) : OpResult := _binop pyMul s

/-- `D`: `a // b if b != 0 else False`. Python `//` is FLOOR division
(`Int.fdiv`). `b != 0` is checked first (a list `b` is `!= 0`, so the
division is attempted and raises TypeError on non-int operands). -/
def op_div (s : VMState) : OpResult :=
  _binop (fun a b =>
    if b = VInt 0 then .fail
    else
      match a, b with
      | VInt x, VInt y => .val (VInt (Int.fdiv x y))
      | _, _ => .crash) s

/-- `X`: `a % b if b != 0 else False`; Python `%` takes the divisor's
sign (`Int.fmod`). -/
def op_mod (s : VMState) : OpResult :=
  _binop (fun a b =>
    if b = VInt 0 then .fail
    else
      match a, b with
      | VInt x, VInt y => .val (VInt (Int.fmod x y))
      | _, _ => .crash) s

/-- `a`: pop `n`, then pop `n` items and push them as one array in
original push order.  A list `n` raises TypeError at `n < 0`. -/
def op_make_array (s : VMState) : OpResult :=
  match s.stack with
  | [] => .err s
  | n :: rest =>
    match n with
    | VArr _ => .crash
    | VInt k =>
      if k < 0 ∨ (rest.length : Int) < k then .err { s with stack := rest }
      else .ok { s with stack := VArr ((rest.take k.toNat).reverse) :: rest.drop k.toNat }

/-- `l`: pop the array, push its length; a non-list operand is a
runtime error (operand already popped). -/
def op_length (s : VMState) : OpResult :=
  match s.stack with
  | [] => .err s
  | arr :: rest =>
    match arr with
    | VInt _ => .err { s with stack := rest }
    | VArr l => .ok { s with stack := VInt (l.length) :: rest }

/-- `g`: pop idx then arr; non-list arr is a runtime error; then the
bounds test `idx < 0 or idx >= len(arr)` (a list idx raises TypeError
there); in bounds pushes `arr[idx]`. -/
def op_get_index (s : VMState) : OpResult :=
  match s.stack with
  | idx :: arr :: rest =>
    match arr with
    | VInt _ => .err { s with stack := rest }
    | VArr l =>
      match idx with
      | VArr _ => .crash
      | VInt i =>
        if i < 0 ∨ (l.length : Int) ≤ i then .err { s with stack := rest }
        else .ok { s with stack := l.getD i.toNat (VInt 0) :: rest }
  | _ => .err s

def op_eq (s : VMState) : OpResult :=
  _binop (fun a b => .val (VInt (if a = b then 1 else 0))) s

def op_gt (s : VMState) : OpResult :=
  _binop (fun a b =>
    match valueCmp a b with
    | some o => .val (VInt (if o = .gt then 1 else 0))
    | none => .crash) s

def op_lt (s : VMState) : OpResult :=
  _binop (fun a b =>
    match valueCmp a b with
    | some o => .val (VInt (if o = .lt then 1 else 0))
    | none => .crash) s

/-- `!`: pop one value; push 0 if it is truthy, 1 if falsy.  Python
truthiness: a nonzero int or a non-empty list is truthy. -/
def op_not (s : VMState) : OpResult :=
  match s.stack with
  | [] => .err s
  | v :: rest =>
    match v with
    | VInt n => .ok { s with stack := VInt (if n = 0 then 1 else 0) :: rest }
    | VArr l => .ok { s with stack := VInt (if l = [] then 1 else 0) :: rest }

def op_and (s : VMState) : OpResult :=
  _binop (fun a b =>
    match a, b with
    | VInt x, VInt y => .val (VInt (Int.land x y))
    | _, _ => .crash) s

def op_or (s : VMState) : OpResult :=
  _binop (fun a b =>
    match a, b with
    | VInt x, VInt y => .val (VInt (Int.lor x y))
    | _, _ => .crash) s

def op_xor (s : VMState) : OpResult :=
  _binop (fun a b =>
    match a, b with
    | VInt x, VInt y => .val (VInt (Int.xor x y))
    | _, _ => .crash) s

/-- `~`: pop; Python `~a` on an int is `-a-1`; on a list it raises
TypeError after the pop (crash). -/
def op_bnot (s : VMState) : OpResult :=
  match s.stack with
  | [] => .err s
  | v :: rest =>
    match v with
    | VInt n => .ok { s with stack := VInt (-(n + 1)) :: rest }
    | VArr _ => .crash

/-- `<`: `a << b if 0 <= b <= 64 else False`.  The bound check runs
first (list `b` raises TypeError there); in range, Python `<<` is exact
multiplication by `2^b`. -/
def op_shl (s : VMState) : OpResult :=
  _binop (fun a b =>
    match b with
    | VArr _ => .crash
    | VInt y =>
      if 0 ≤ y ∧ y ≤ 64 then
        match a with
        | VInt x => .val (VInt (x * 2 ^ y.toNat))
        | VArr _ => .crash
      else .fail) s

/-- `>`: arithmetic shift right, i.e. floor division by `2^b`. -/
def op_shr (s : VMState) : OpResult :=
  _binop (fun a b =>
    match b with
    | VArr _ => .crash
    | VInt y =>
      if 0 ≤ y ∧ y ≤ 64 then
        match a with
        | VInt x => .val (VInt (Int.fdiv x (2 ^ y.toNat)))
        | VArr _ => .crash
      else .fail) s

def op_dup (s : VMState) : OpResult :=
  match s.stack with
  | [] => .err s
  | v :: rest => .ok { s with stack := v :: v :: rest }

def op_swap (s : VMState) : OpResult :=
  match s.stack with
  | a :: b :: rest => .ok { s with stack := b :: a :: rest }
  | _ => .err s

def op_drop (s : VMState) : OpResult :=
  match s.stack with
  | [] => .err s
  | _ :: rest => .ok { s with stack := rest }

/-- `Y`: push a copy of the second-from-top element. -/
def op_over (s : VMState) : OpResult :=
  match s.stack with
  | a :: b :: rest => .ok { s with stack := b :: a :: b :: rest }
  | _ => .err s

/-- `R`: `a b c -- b c a` (bottom-to-top); with head-as-top lists,
`c :: b :: a :: rest` becomes `a :: c :: b :: rest`. -/
def op_rot (s : VMState) : OpResult :=
  match s.stack with
  | c :: b :: a :: rest => .ok { s with stack := a :: c :: b :: rest }
  | _ => .err s

/-- `T`: pop addr then val, write `memory[addr] = val`.  A list address
is unhashable: TypeError (crash). -/
def op_store (s : VMState) : OpResult :=
  match s.stack with
  | addr :: val :: rest =>
    match addr with
    | VArr _ => .crash
    | VInt a => .ok { s with stack := rest, memory := mset s.memory a val }
  | _ => .err s

/-- `F`: pop addr, push `memory.get(addr, 0)`. -/
def op_load (s : VMState) : OpResult :=
  match s.stack with
  | [] => .err s
  | addr :: rest =>
    match addr with
    | VArr _ => .crash
    | VInt a => .ok { s with stack := ((mget s.memory a).getD (VInt 0)) :: rest }

def op_ptr_add (s : VMState) : OpResult :=
  match s.stack with
  | offset :: ptr :: rest =>
    match pyAdd ptr offset with
    | .val v => .ok { s with stack := v :: rest }
    | .fail => .err { s with stack := rest }
    | .crash => .crash
  | _ => .err s

def op_ptr_sub (s : VMState) : OpResult :=
  match s.stack with
  | offset :: ptr :: rest =>
    match pySub ptr offset with
    | .val v => .ok { s with stack := v :: rest }
    | .fail => .err { s with stack := rest }
    | .crash => .crash
  | _ => .err s

/-- `B`: pop addr; `memory.get(addr, [])`; push a deep copy of the
stored list, or wrap a stored scalar in a one-element list. -/
def op_read_buffer (s : VMState) : OpResult :=
  match s.stack with
  | [] => .err s
  | addr :: rest =>
    match addr with
    | VArr _ => .crash
    | VInt a =>
      match (mget s.memory a).getD (VArr []) with
      | VArr l => .ok { s with stack := VArr l :: rest }
      | VInt n => .ok { s with stack := VArr [VInt n] :: rest }

/-- `S`: pop addr then buf; a non-list buf is a runtime error (checked
before the memory write); then `memory[addr] = deepcopy(buf)`. -/
def op_set_buffer (s : VMState) : OpResult :=
  match s.stack with
  | addr :: buf :: rest =>
    match buf with
    | VInt _ => .err { s with stack := rest }
    | VArr l =>
      match addr with
      | VArr _ => .crash
      | VInt a => .ok { s with stack := rest, memory := mset s.memory a (VArr l) }
  | _ => .err s

/-- `$` compare-and-swap: pop addr, old, new; if `memory.get(addr,0)`
equals old, write new and push 1, else push 0. -/
def op_cas (s : VMState) : OpResult :=
  match s.stack with
  | addr :: old :: new :: rest =>
    match addr with
    | VArr _ => .crash
    | VInt a =>
      if (mget s.memory a).getD (VInt 0) = old then
        .ok { s with stack := VInt 1 :: rest, memory := mset s.memory a new }
      else
        .ok { s with stack := VInt 0 :: rest }
  | _ => .err s

/-- `%` test-and-set: pop addr, push the old value, write 1. -/
def op_tas (s : VMState) : OpResult :=
  match s.stack with
  | [] => .err s
  | addr :: rest =>
    match addr with
    | VArr _ => .crash
    | VInt a =>
      .ok { s with stack := ((mget s.memory a).getD (VInt 0)) :: rest,
                   memory := mset s.memory a (VInt 1) }

def op_fence (s : VMState) : OpResult := .ok s

/-- `J`: pop offset; `pc += offset - 1` (the main loop adds 1 after).
No bounds check of any kind.  A list offset raises TypeError. -/
def op_jump (s : VMState) : OpResult :=
  match s.stack with
  | [] => .err s
  | offset :: rest =>
    match offset with
    | VArr _ => .crash
    | VInt o => .ok { s with stack := rest, pc := s.pc + o - 1 }

/-- `Z`: pop offset then val; jump when `val == 0` (only `VInt 0`
equals 0; the offset is only touched when the jump fires). -/
def op_jump_zero (s : VMState) : OpResult :=
  match s.stack with
  | offset :: val :: rest =>
    if val = VInt 0 then
      match offset with
      | VArr _ => .crash
      | VInt o => .ok { s with stack := rest, pc := s.pc + o - 1 }
    else .ok { s with stack := rest }
  | _ => .err s

/-- `N`: pop offset then val; jump when `val != 0`. -/
def op_jump_not_zero (s : VMState) : OpResult :=
  match s.stack with
  | offset :: val :: rest =>
    if val = VInt 0 then .ok { s with stack := rest }
    else
      match offset with
      | VArr _ => .crash
      | VInt o => .ok { s with stack := rest, pc := s.pc + o - 1 }
  | _ => .err s

/-- `H`: `pc = len(tokens)`; the loop then increments pc past the end. -/
def op_halt (toks : List Token) (s : VMState) : OpResult :=
  .ok { s with pc := (toks.length : Int) }

/-- `C`: underflow and call-depth checks, then pop offset, push
`(pc + 1, len(stack) after the pop)` and set `pc = pc + offset - 1`. -/
def op_call (s : VMState) : OpResult :=
  match s.stack with
  | [] => .err s
  | offset :: rest =>
    if s.call_stack.length ≥ max_call_depth then .err s
    else
      match offset with
      | VArr _ => .crash
      | VInt o =>
        .ok { s with stack := rest,
                     call_stack := (s.pc + 1, rest.length) :: s.call_stack,
                     pc := s.pc + o - 1 }

/-- `Q`: fail on empty call stack, fail on empty operand stack; pop the
return value, pop `(ret_addr, prev_stack_size)`, truncate the stack to
its bottom `prev_stack_size` elements (`stack[:prev_stack_size]` — a
no-op when the stack is already shorter), push the return value, and
set `pc = ret_addr - 1`. -/
def op_return (s : VMState) : OpResult :=
  match s.call_stack with
  | [] => .err s
  | (ret_addr, prev_stack_size) :: cs =>
    match s.stack with
    | [] => .err s
    | rv :: rest =>
      .ok { s with stack := rv :: rest.drop (rest.length - prev_stack_size),
                   call_stack := cs,
                   pc := ret_addr - 1 }

/-- `P`: pop; a non-int is a runtime error (operand already popped);
print the integer on its own line. -/
def op_print_int (s : VMState) : OpResult :=
  match s.stack with
  | [] => .err s
  | v :: rest =>
    match v with
    | VArr _ => .err { s with stack := rest }
    | VInt n => .ok { s with stack := rest, out := s.out ++ [OutEvent.outInt n] }

/-- `I`: consume one response from the int-input stream; end of stream
models EOF, `none` models an unparseable line — both return False. -/
def op_input_int (s : VMState) : OpResult :=
  match s.inInt with
  | [] => .err s
  | none :: t => .err { s with inInt := t }
  | some n :: t => .ok { s with stack := VInt n :: s.stack, inInt := t }

/-- `K`: consume one response from the char-input stream; `none`
models a line whose length is not exactly 1. -/
def op_input_char (s : VMState) : OpResult :=
  match s.inChar with
  | [] => .err s
  | none :: t => .err { s with inChar := t }
  | some n :: t => .ok { s with stack := VInt n :: s.stack, inChar := t }

/-- `O`: pop; non-int or a code point outside `[0, 0x10FFFF]` is a
runtime error; otherwise emit the character. -/
def op_print_char (s : VMState) : OpResult :=
  match s.stack with
  | [] => .err s
  | v :: rest =>
    match v with
    | VArr _ => .err { s with stack := rest }
    | VInt n =>
      if n < 0 ∨ 0x10FFFF < n then .err { s with stack := rest }
      else .ok { s with stack := rest, out := s.out ++ [OutEvent.outChar n] }

/-- The dispatch table `self.ops`: `none` for a character that is not
an opcode. -/
def execOp (toks : List Token) (c : Char) (s : VMState) : Option OpResult :=
  match c with
  | 'A' => some (op_add s)
  | 's' => some (op_sub s)
  | 'M' => some (op_mul s)
  | 'D' => some (op_div s)
  | 'X' => some (op_mod s)
  | 'a' => some (op_make_array s)
  | 'l' => some (op_length s)
  | 'g' => some (op_get_index s)
  | 'E' => some (op_eq s)
  | 'G' => some (op_gt s)
  | 'L' => some (op_lt s)
  | '!' => some (op_not s)
  | '&' => some (op_and s)
  | '|' => some (op_or s)
  | '^' => some (op_xor s)
  | '~' => some (op_bnot s)
  | '<' => some (op_shl s)
  | '>' => some (op_shr s)
  | 'U' => some (op_dup s)
  | 'W' => some (op_swap s)
  | 'V' => some (op_drop s)
  | 'Y' => some (op_over s)
  | 'R' => some (op_rot s)
  | 'T' => some (op_store s)
  | 'F' => some (op_load s)
  | '@' => some (op_ptr_add s)
  | '#' => some (op_ptr_sub s)
  | 'B' => some (op_read_buffer s)
  | 'S' => some (op_set_buffer s)
  | '$' => some (op_cas s)
  | '%' => some (op_tas s)
  | '=' => some (op_fence s)
  | 'J' => some (op_jump s)
  | 'Z' => some (op_jump_zero s)
  | 'N' => some (op_jump_not_zero s)
  | 'H' => some (op_halt toks s)
  | 'C' => some (op_call s)
  | 'Q' => some (op_return s)
  | 'P' => some (op_print_int s)
  | 'I' => some (op_input_int s)
  | 'K' => some (op_input_char s)
  | 'O' => some (op_print_char s)
  | _ => none

def is_hex (c : Char) : Bool :=
  (String.toList "0123456789abcdefABCDEF").contains c

def isOpChar (c : Char) : Bool :=
  c.isUpper || (String.toList "!&|^~<>@#=s$%alg").contains c

def digitsToNat (ds : List Char) : Nat :=
  ds.foldl (fun acc c => acc * 10 + (c.toNat - 48)) 0

def hexDigitVal (c : Char) : Nat :=
  if c.isDigit then c.toNat - 48
  else if 'a' ≤ c then c.toNat - 87
  else c.toNat - 55

def hexToNat (ds : List Char) : Nat :=
  ds.foldl (fun acc c => acc * 16 + hexDigitVal c) 0

/-- Tokenization errors, with the byte position the Python exception
message cites. -/
inductive TokErr where
  | emptyHex : Nat → TokErr
  | invalidChar : Char → Nat → TokErr
deriving DecidableEq, Repr

/-- `tokenize` from alpha_i2.py, on the character list of the program,
carrying the current byte position `i`.  Branch order matches the
Python `while` body: whitespace, string literal, negative number, hex
literal, decimal number, operator, invalid character.  Note the string
branch accepts an unterminated literal: it emits a BUFFER token from
everything after the opening quote.

Structural recursion on a fuel argument so that the kernel can
evaluate it; every step consumes at least one character, so fuel equal
to the number of remaining characters always suffices and the fuel-out
base case is unreachable from the `tokenize` wrapper below. -/
def tokenizeF : Nat → List Char → Nat → Except TokErr (List Token)
  | _, [], _ => .ok []
  | 0, _ :: _, _ => .ok []
  | fuel + 1, c :: rest, i =>
    if c = ' ' ∨ c = '\n' ∨ c = '\t' ∨ c = '\r' then
      tokenizeF fuel rest (i + 1)
    else if c = '"' then
      let body := rest.takeWhile (· != '"')
      let codes : List Int := body.map (fun ch => (ch.toNat : Int))
      match rest.dropWhile (· != '"') with
      | [] => .ok [Token.BUFFER codes]
      | _ :: tail =>
        (tokenizeF fuel tail (i + body.length + 2)).map (Token.BUFFER codes :: ·)
    else if c = '-' ∧ rest.head?.elim false Char.isDigit then
      let ds := rest.takeWhile Char.isDigit
      (tokenizeF fuel (rest.dropWhile Char.isDigit) (i + 1 + ds.length)).map
        (Token.LIT (-(digitsToNat ds : Int)) :: ·)
    else if c = '0' ∧ rest.head?.elim false (fun x => x = 'x' ∨ x = 'X') then
      let hx := rest.tail.takeWhile is_hex
      if hx = [] then .error (TokErr.emptyHex i)
      else
        (tokenizeF fuel (rest.tail.dropWhile is_hex) (i + 2 + hx.length)).map
          (Token.LIT (hexToNat hx : Int) :: ·)
    else if c.isDigit then
      let ds := rest.takeWhile Char.isDigit
      (tokenizeF fuel (rest.dropWhile Char.isDigit) (i + 1 + ds.length)).map
        (Token.LIT (digitsToNat (c :: ds) : Int) :: ·)
    else if isOpChar c then
      (tokenizeF fuel rest (i + 1)).map (Token.OP c :: ·)
    else .error (TokErr.invalidChar c i)

def tokenize (cs : List Char) (i : Nat) : Except TokErr (List Token) :=
  tokenizeF cs.length cs i

/-- Python list indexing `self.tokens[pc]`: non-negative indices are
direct, negative indices count from the end, anything else raises
IndexError (`none`). -/
def tokenAt (toks : List Token) (pc : Int) : Option Token :=
  let j : Int := if pc < 0 then (toks.length : Int) + pc else pc
  if 0 ≤ j ∧ j < (toks.length : Int) then toks[j.toNat]? else none

/-- Outcome of the main loop of `execute`: `halted` = the loop
condition `pc < len(tokens)` went false and the stack is returned,
`errored` = an opcode returned False (`return None` with a diagnostic),
`unknownOp` = a dispatch miss, `crashed` = an uncaught exception. -/
inductive Outcome where
  | halted : VMState → Outcome
  | errored : Char → VMState → Outcome
  | unknownOp : Char → VMState → Outcome
  | crashed : Outcome
  | fuelOut : Outcome
deriving DecidableEq, Repr

/-- The `while self.pc < len(self.tokens)` loop of `execute`,
fuel-indexed.  Lit and Buffer tokens push and advance; Op tokens
dispatch, and on success `pc` is incremented afterwards. -/
def runLoop : Nat → List Token → VMState → Outcome
  | 0, _, _ => .fuelOut
  | fuel + 1, toks, s =>
    if (toks.length : Int) ≤ s.pc then .halted s
    else
      match tokenAt toks s.pc with
      | none => .crashed
      | some (.LIT n) =>
        runLoop fuel toks { s with stack := VInt n :: s.stack, pc := s.pc + 1 }
      | some (.BUFFER l) =>
        runLoop fuel toks { s with stack := VArr (l.map VInt) :: s.stack, pc := s.pc + 1 }
      | some (.OP c) =>
        match execOp toks c s with
        | none => .unknownOp c s
        | some (.ok s') => runLoop fuel toks { s' with pc := s'.pc + 1 }
        | some (.err s') => .errored c s'
        | some .crash => .crashed

def initState : VMState :=
  { stack := [], memory := [], call_stack := [], pc := 0, out := [],
    inInt := [], inChar := [] }

inductive ExecResult where
  | lexError : TokErr → ExecResult
  | ran : Outcome → ExecResult
deriving DecidableEq, Repr

/-- `execute`: reset state, tokenize (a lexical error propagates as an
exception), then run the main loop. -/
def execute (fuel : Nat) (inI inC : List (Option Int)) (program : String) :
    ExecResult :=
  match tokenize (String.toList program) 0 with
  | .error e => .lexError e
  | .ok toks =>
    .ran (runLoop fuel toks { initState with inInt := inI, inChar := inC })

/-- Helper: any `err` result of `_binop` keeps memory and call stack
(and pc, output) unchanged; only operand pops may have happened. -/
theorem _binop_err_frame (f : Value → Value → BRes) (s s' : VMState)
    (h : _binop f s = .err s') :
    s'.memory = s.memory ∧ s'.call_stack = s.call_stack := by
  unfold _binop at h
  repeat' split at h
  all_goals first
    | (cases h; exact ⟨rfl, rfl⟩)
    | exact OpResult.noConfusion h

theorem opfr_make_array (s s' : VMState) (h : op_make_array s = .err s') :
    s'.memory = s.memory ∧ s'.call_stack = s.call_stack := by
  unfold op_make_array at h
  repeat' split at h
  all_goals first
    | (cases h; exact ⟨rfl, rfl⟩)
    | exact OpResult.noConfusion h

theorem opfr_length (s s' : VMState) (h : op_length s = .err s') :
    s'.memory = s.memory ∧ s'.call_stack = s.call_stack := by
  unfold op_length at h
  repeat' split at h
  all_goals first
    | (cases h; exact ⟨rfl, rfl⟩)
    | exact OpResult.noConfusion h

theorem opfr_get_index (s s' : VMState) (h : op_get_index s = .err s') :
    s'.memory = s.memory ∧ s'.call_stack = s.call_stack := by
  unfold op_get_index at h
  repeat' split at h
  all_goals first
    | (cases h; exact ⟨rfl, rfl⟩)
    | exact OpResult.noConfusion h

theorem opfr_not (s s' : VMState) (h : op_not s = .err s') :
    s'.memory = s.memory ∧ s'.call_stack = s.call_stack := by
  unfold op_not at h
  repeat' split at h
  all_goals first
    | (cases h; exact ⟨rfl, rfl⟩)
    | exact OpResult.noConfusion h

theorem opfr_bnot (s s' : VMState) (h : op_bnot s = .err s') :
    s'.memory = s.memory ∧ s'.call_stack = s.call_stack := by
  unfold op_bnot at h
  repeat' split at h
  all_goals first
    | (cases h; exact ⟨rfl, rfl⟩)
    | exact OpResult.noConfusion h

theorem opfr_dup (s s' : VMState) (h : op_dup s = .err s') :
    s'.memory = s.memory ∧ s'.call_stack = s.call_stack := by
  unfold op_dup at h
  repeat' split at h
  all_goals first
    | (cases h; exact ⟨rfl, rfl⟩)
    | exact OpResult.noConfusion h

theorem opfr_swap (s s' : VMState) (h : op_swap s = .err s') :
    s'.memory = s.memory ∧ s'.call_stack = s.call_stack := by
  unfold op_swap at h
  repeat' split at h
  all_goals first
    | (cases h; exact ⟨rfl, rfl⟩)
    | exact OpResult.noConfusion h

theorem opfr_drop (s s' : VMState) (h : op_drop s = .err s') :
    s'.memory = s.memory ∧ s'.call_stack = s.call_stack := by
  unfold op_drop at h
  repeat' split at h
  all_goals first
    | (cases h; exact ⟨rfl, rfl⟩)
    | exact OpResult.noConfusion h

theorem opfr_over (s s' : VMState) (h : op_over s = .err s') :
    s'.memory = s.memory ∧ s'.call_stack = s.call_stack := by
  unfold op_over at h
  repeat' split at h
  all_goals first
    | (cases h; exact ⟨rfl, rfl⟩)
    | exact OpResult.noConfusion h

theorem opfr_rot (s s' : VMState) (h : op_rot s = .err s') :
    s'.memory = s.memory ∧ s'.call_stack = s.call_stack := by
  unfold op_rot at h
  repeat' split at h
  all_goals first
    | (cases h; exact ⟨rfl, rfl⟩)
    | exact OpResult.noConfusion h

theorem opfr_store (s s' : VMState) (h : op_store s = .err s') :
    s'.memory = s.memory ∧ s'.call_stack = s.call_stack := by
  unfold op_store at h
  repeat' split at h
  all_goals first
    | (cases h; exact ⟨rfl, rfl⟩)
    | exact OpResult.noConfusion h

theorem opfr_load (s s' : VMState) (h : op_load s = .err s') :
    s'.memory = s.memory ∧ s'.call_stack = s.call_stack := by
  unfold op_load at h
  repeat' split at h
  all_goals first
    | (cases h; exact ⟨rfl, rfl⟩)
    | exact OpResult.noConfusion h

theorem opfr_ptr_add (s s' : VMState) (h : op_ptr_add s = .err s') :
    s'.memory = s.memory ∧ s'.call_stack = s.call_stack := by
  unfold op_ptr_add at h
  repeat' split at h
  all_goals first
    | (cases h; exact ⟨rfl, rfl⟩)
    | exact OpResult.noConfusion h

theorem opfr_ptr_sub (s s' : VMState) (h : op_ptr_sub s = .err s') :
    s'.memory = s.memory ∧ s'.call_stack = s.call_stack := by
  unfold op_ptr_sub at h
  repeat' split at h
  all_goals first
    | (cases h; exact ⟨rfl, rfl⟩)
    | exact OpResult.noConfusion h

theorem opfr_read_buffer (s s' : VMState) (h : op_read_buffer s = .err s') :
    s'.memory = s.memory ∧ s'.call_stack = s.call_stack := by
  unfold op_read_buffer at h
  repeat' split at h
  all_goals first
    | (cases h; exact ⟨rfl, rfl⟩)
    | exact OpResult.noConfusion h

theorem opfr_set_buffer (s s' : VMState) (h : op_set_buffer s = .err s') :
    s'.memory = s.memory ∧ s'.call_stack = s.call_stack := by
  unfold op_set_buffer at h
  repeat' split at h
  all_goals first
    | (cases h; exact ⟨rfl, rfl⟩)
    | exact OpResult.noConfusion h

theorem opfr_cas (s s' : VMState) (h : op_cas s = .err s') :
    s'.memory = s.memory ∧ s'.call_stack = s.call_stack := by
  unfold op_cas at h
  repeat' split at h
  all_goals first
    | (cases h; exact ⟨rfl, rfl⟩)
    | exact OpResult.noConfusion h

theorem opfr_tas (s s' : VMState) (h : op_tas s = .err s') :
    s'.memory = s.memory ∧ s'.call_stack = s.call_stack := by
  unfold op_tas at h
  repeat' split at h
  all_goals first
    | (cases h; exact ⟨rfl, rfl⟩)
    | exact OpResult.noConfusion h

theorem opfr_fence (s s' : VMState) (h : op_fence s = .err s') :
    s'.memory = s.memory ∧ s'.call_stack = s.call_stack := by
  unfold op_fence at h
  exact OpResult.noConfusion h

theorem opfr_jump (s s' : VMState) (h : op_jump s = .err s') :
    s'.memory = s.memory ∧ s'.call_stack = s.call_stack := by
  unfold op_jump at h
  repeat' split at h
  all_goals first
    | (cases h; exact ⟨rfl, rfl⟩)
    | exact OpResult.noConfusion h

theorem opfr_jump_zero (s s' : VMState) (h : op_jump_zero s = .err s') :
    s'.memory = s.memory ∧ s'.call_stack = s.call_stack := by
  unfold op_jump_zero at h
  repeat' split at h
  all_goals first
    | (cases h; exact ⟨rfl, rfl⟩)
    | exact OpResult.noConfusion h

theorem opfr_jump_not_zero (s s' : VMState) (h : op_jump_not_zero s = .err s') :
    s'.memory = s.memory ∧ s'.call_stack = s.call_stack := by
  unfold op_jump_not_zero at h
  repeat' split at h
  all_goals first
    | (cases h; exact ⟨rfl, rfl⟩)
    | exact OpResult.noConfusion h

theorem opfr_halt (toks : List Token) (s s' : VMState)
    (h : op_halt toks s = .err s') :
    s'.memory = s.memory ∧ s'.call_stack = s.call_stack := by
  unfold op_halt at h
  exact OpResult.noConfusion h

theorem opfr_call (s s' : VMState) (h : op_call s = .err s') :
    s'.memory = s.memory ∧ s'.call_stack = s.call_stack := by
  unfold op_call at h
  repeat' split at h
  all_goals first
    | (cases h; exact ⟨rfl, rfl⟩)
    | exact OpResult.noConfusion h

theorem opfr_return (s s' : VMState) (h : op_return s = .err s') :
    s'.memory = s.memory ∧ s'.call_stack = s.call_stack := by
  unfold op_return at h
  repeat' split at h
  all_goals first
    | (cases h; exact ⟨rfl, rfl⟩)
    | exact OpResult.noConfusion h

theorem opfr_print_int (s s' : VMState) (h : op_print_int s = .err s') :
    s'.memory = s.memory ∧ s'.call_stack = s.call_stack := by
  unfold op_print_int at h
  repeat' split at h
  all_goals first
    | (cases h; exact ⟨rfl, rfl⟩)
    | exact OpResult.noConfusion h

theorem opfr_input_int (s s' : VMState) (h : op_input_int s = .err s') :
    s'.memory = s.memory ∧ s'.call_stack = s.call_stack := by
  unfold op_input_int at h
  repeat' split at h
  all_goals first
    | (cases h; exact ⟨rfl, rfl⟩)
    | exact OpResult.noConfusion h

theorem opfr_input_char (s s' : VMState) (h : op_input_char s = .err s') :
    s'.memory = s.memory ∧ s'.call_stack = s.call_stack := by
  unfold op_input_char at h
  repeat' split at h
  all_goals first
    | (cases h; exact ⟨rfl, rfl⟩)
    | exact OpResult.noConfusion h

theorem opfr_print_char (s s' : VMState) (h : op_print_char s = .err s') :
    s'.memory = s.memory ∧ s'.call_stack = s.call_stack := by
  unfold op_print_char at h
  repeat' split at h
  all_goals first
    | (cases h; exact ⟨rfl, rfl⟩)
    | exact OpResult.noConfusion h

/-- C1 (corrected part): the claim says `D` truncates toward zero, so
that `-7 D 2` yields `-3`; the interpreter computes Python floor
division, which yields `-4` here (while truncation `Int.div` gives
`-3`). -/
theorem C1_counterexample :
    op_div { initState with stack := [VInt 2, VInt (-7)] } =
      .ok { initState with stack := [VInt (-4)] } ∧
    Int.tdiv (-7) 2 = -3 ∧ ((-4 : Int) ≠ -3) := by decide

/-- C1 (amended): for integers `a` (below) and `b` (top), `D` pops both
and pushes the FLOOR quotient `Int.fdiv a b` (so `-7` divided by `2`
yields `-4`), and fails exactly when `b == 0` (with both operands
popped). -/
theorem C1_div_floor (a b : Int) (rest : List Value) (s : VMState) :
    op_div { s with stack := VInt b :: VInt a :: rest } =
      (if b = 0 then .err { s with stack := rest }
       else .ok { s with stack := VInt (Int.fdiv a b) :: rest }) := by
  by_cases hb : b = 0 <;> simp [op_div, _binop, hb]

/-- C2 (corrected part): the claim says a failing opcode leaves the
operand stack as it was; `D` on stack `[5, 0]` (0 on top) fails after
popping BOTH operands, leaving the empty stack. -/
theorem C2_counterexample :
    op_div { initState with stack := [VInt 0, VInt 5] } =
      .err { initState with stack := [] } ∧
    ([] : List Value) ≠ [VInt 0, VInt 5] := by decide

/-- C2 (amended): for every opcode and every state on which it fails
(returns False), the failure leaves memory and the call stack exactly
as they were; only operand-stack pops (and consumed input) may have
happened before the failure. -/
theorem C2_fail_frame (toks : List Token) (c : Char) (s s' : VMState)
    (h : execOp toks c s = some (.err s')) :
    s'.memory = s.memory ∧ s'.call_stack = s.call_stack := by
  unfold execOp at h
  split at h <;>
    first
      | exact Option.noConfusion h
      | skip
  all_goals injection h with h
  all_goals
    first
      | exact _binop_err_frame _ _ _ h
      | exact opfr_make_array _ _ h
      | exact opfr_length _ _ h
      | exact opfr_get_index _ _ h
      | exact opfr_not _ _ h
      | exact opfr_bnot _ _ h
      | exact opfr_dup _ _ h
      | exact opfr_swap _ _ h
      | exact opfr_drop _ _ h
      | exact opfr_over _ _ h
      | exact opfr_rot _ _ h
      | exact opfr_store _ _ h
      | exact opfr_load _ _ h
      | exact opfr_ptr_add _ _ h
      | exact opfr_ptr_sub _ _ h
      | exact opfr_read_buffer _ _ h
      | exact opfr_set_buffer _ _ h
      | exact opfr_cas _ _ h
      | exact opfr_tas _ _ h
      | exact opfr_fence _ _ h
      | exact opfr_jump _ _ h
      | exact opfr_jump_zero _ _ h
      | exact opfr_jump_not_zero _ _ h
      | exact opfr_halt _ _ _ h
      | exact opfr_call _ _ h
      | exact opfr_return _ _ h
      | exact opfr_print_int _ _ h
      | exact opfr_input_int _ _ h
      | exact opfr_input_char _ _ h
      | exact opfr_print_char _ _ h

/-- Witness for C2_fail_frame: `D` failing on divisor 0. -/
theorem C2_fail_frame_witness :
    ({ initState with stack := ([] : List Value) } : VMState).memory =
      ({ initState with stack := [VInt 0, VInt 5] } : VMState).memory ∧
    ({ initState with stack := ([] : List Value) } : VMState).call_stack =
      ({ initState with stack := [VInt 0, VInt 5] } : VMState).call_stack :=
  C2_fail_frame [] 'D' { initState with stack := [VInt 0, VInt 5] }
    { initState with stack := [] } (by decide)

def progC3 : String := "5 J 1 P H"

def progC3_wrap : String := "7 P -4 J H"

def progC3_neg : String := "-3 J"

/-- C3 (corrected part): `5 J 1 P H` computes the jump target `6`,
outside `[0, 5]`; the claim says this is a runtime error returning no
result, but the interpreter's loop condition simply goes false and the
run HALTS SUCCESSFULLY, returning the (empty) stack. -/
theorem C3_counterexample :
    execute 20 [] [] progC3 =
      .ran (.halted { initState with pc := 6 }) := by decide

/-- C3 (amended): computed jump targets of `J`/`Z`/`N` are never
validated.  Conjuncts 1-3: for EVERY integer offset and every state,
`J`, `Z` and `N` succeed unconditionally, setting `pc := pc + off - 1`
when the jump fires (`Z` fires on value 0, `N` on any other value) —
no bounds check of any kind.  Conjunct 4: the main loop at EVERY
`pc ≥ len(tokens)` exits as a normal successful halt.  Conjunct 5: at
EVERY negative `pc` with `len(tokens) + pc ≥ 0` the loop's token fetch
wraps via Python negative indexing — it reads the token at index
`len(tokens) + pc` — and the loop guard does not halt there, so
execution continues from the wrapped position.  Conjunct 6: at EVERY
`pc < -len(tokens)` the fetch raises IndexError and the run crashes.
Conjuncts 7-9 exercise this end to end: `5 J 1 P H` (target 6 > 5)
halts successfully; `7 P -4 J H` jumps to target `-1`, re-enters the
token list at index 4 (the `H`) and halts normally after printing 7;
`-3 J` eventually reaches pc `-4` with only 2 tokens and crashes. -/
theorem C3_jump_no_validation (toks : List Token) (s : VMState) (off : Int)
    (v : Value) (rest : List Value) (fuel : Nat) :
    op_jump { s with stack := VInt off :: rest } =
      .ok { s with stack := rest, pc := s.pc + off - 1 } ∧
    op_jump_zero { s with stack := VInt off :: v :: rest } =
      .ok { s with stack := rest,
                   pc := if v = VInt 0 then s.pc + off - 1 else s.pc } ∧
    op_jump_not_zero { s with stack := VInt off :: v :: rest } =
      .ok { s with stack := rest,
                   pc := if v = VInt 0 then s.pc else s.pc + off - 1 } ∧
    ((toks.length : Int) ≤ s.pc → runLoop (fuel + 1) toks s = .halted s) ∧
    (s.pc < 0 → 0 ≤ (toks.length : Int) + s.pc →
      ¬ ((toks.length : Int) ≤ s.pc) ∧
      tokenAt toks s.pc = tokenAt toks ((toks.length : Int) + s.pc)) ∧
    (s.pc < 0 → (toks.length : Int) + s.pc < 0 →
      runLoop (fuel + 1) toks s = .crashed) ∧
    execute 20 [] [] progC3 = .ran (.halted { initState with pc := 6 }) ∧
    execute 20 [] [] progC3_wrap =
      .ran (.halted { initState with pc := 6, out := [OutEvent.outInt 7] }) ∧
    execute 20 [] [] progC3_neg = .ran .crashed := by
  refine ⟨by simp [op_jump], ?_, ?_, ?_, ?_, ?_, by decide, by decide, by decide⟩
  · by_cases hv : v = VInt 0 <;> simp [op_jump_zero, hv]
  · by_cases hv : v = VInt 0 <;> simp [op_jump_not_zero, hv]
  · intro h
    unfold runLoop
    rw [if_pos h]
  · intro h1 h2
    refine ⟨by omega, ?_⟩
    have h3 : ¬ ((toks.length : Int) + s.pc < 0) := not_lt.mpr h2
    simp only [tokenAt]
    rw [if_pos h1, if_neg h3]
  · intro h1 h2
    have hg : ¬ ((toks.length : Int) ≤ s.pc) := by omega
    have ht : tokenAt toks s.pc = none := by
      simp only [tokenAt]
      rw [if_pos h1, if_neg]
      exact fun hc => absurd hc.1 (not_le.mpr h2)
    unfold runLoop
    rw [if_neg hg, ht]

/-- Witness for C3_jump_no_validation, discharging each hypothesis:
the loop halts at pc 5 past a 1-token program; the fetch at pc `-1` in
a 2-token program wraps to index 1; the loop crashes at pc `-2` in a
1-token program. -/
theorem C3_jump_no_validation_witness :
    runLoop 1 [Token.OP 'H'] { initState with pc := 5 } =
      .halted { initState with pc := 5 } ∧
    tokenAt [Token.OP 'H', Token.OP 'P'] (-1) =
      tokenAt [Token.OP 'H', Token.OP 'P']
        (([Token.OP 'H', Token.OP 'P'].length : Int) + (-1)) ∧
    runLoop 1 [Token.OP 'H'] { initState with pc := -2 } = .crashed := by
  refine ⟨?_, ?_, ?_⟩
  · exact (C3_jump_no_validation [Token.OP 'H'] { initState with pc := 5 }
      0 (VInt 0) [] 0).2.2.2.1 (by decide)
  · exact ((C3_jump_no_validation [Token.OP 'H', Token.OP 'P']
      { initState with pc := -1 }
      0 (VInt 0) [] 0).2.2.2.2.1 (by decide) (by decide)).2
  · exact (C3_jump_no_validation [Token.OP 'H'] { initState with pc := -2 }
      0 (VInt 0) [] 0).2.2.2.2.2.1 (by decide) (by decide)

def progC4 : String := "10 20 2 C H V V 99 Q"

/-- C4 (corrected part): in `10 20 2 C H V V 99 Q` the call pushes the
frame `(4, 2)` (saved_depth 2); the function drops both caller values
before returning, so `Q` runs with non-empty call stack and non-empty
operand stack but leaves a stack of length 1, not saved_depth + 1 = 3. -/
theorem C4_counterexample :
    execute 40 [] [] progC4 =
      .ran (.halted { initState with stack := [VInt 99], pc := 10 }) ∧
    ([VInt 99] : List Value).length ≠ 2 + 1 := by decide

/-- C4 (amended): `Q` with frame `(ret, d)` on top of the call stack
and return value `rv` on top of the operand stack succeeds, truncating
the remaining stack to its bottom `d` elements — which restores depth
`d` only when at least `d` elements remain; in general the new depth is
`min d (remaining depth) + 1` — then pushes `rv` and sets
`pc := ret - 1` (the main loop's increment makes the next executed
token the one at index `ret`). -/
theorem C4_return_truncates (s : VMState) (rv : Value) (rest : List Value)
    (ret : Int) (d : Nat) (cs : List (Int × Nat)) :
    op_return { s with stack := rv :: rest, call_stack := (ret, d) :: cs } =
      .ok { s with stack := rv :: rest.drop (rest.length - d),
                   call_stack := cs, pc := ret - 1 } ∧
    (rv :: rest.drop (rest.length - d)).length = min d rest.length + 1 := by
  constructor
  · simp [op_return]
  · simp only [List.length_cons, List.length_drop]
    omega

/-- C5 (corrected part): the claim says `A` wraps modulo `2^64` into
`[-2^63, 2^63 - 1]`; adding `2^63 + 2^63` pushes the exact value
`2^64`, which is above `2^63 - 1` (and distinct from the wrapped value
0). -/
theorem C5_counterexample :
    op_add { initState with stack := [VInt (2 ^ 63), VInt (2 ^ 63)] } =
      .ok { initState with stack := [VInt (2 ^ 64)] } ∧
    ¬ ((2 : Int) ^ 64 ≤ 2 ^ 63 - 1) ∧ ((2 : Int) ^ 64 ≠ 0) := by decide

/-- C5 (amended): interpreter integers are Python arbitrary-precision
ints: `A`, `M` and `<` (for shift amounts `0 ≤ k ≤ 64`) push the exact
mathematical result `a + b`, `a * b`, `a * 2^k`, with no 64-bit
wrapping; a shift amount above 64 is a runtime error. -/
theorem C5_exact_arithmetic (a b : Int) (k : Nat) (rest : List Value)
    (s : VMState) :
    op_add { s with stack := VInt b :: VInt a :: rest } =
      .ok { s with stack := VInt (a + b) :: rest } ∧
    op_mul { s with stack := VInt b :: VInt a :: rest } =
      .ok { s with stack := VInt (a * b) :: rest } ∧
    op_shl { s with stack := VInt (k : Int) :: VInt a :: rest } =
      (if k ≤ 64 then .ok { s with stack := VInt (a * 2 ^ k) :: rest }
       else .err { s with stack := rest }) := by
  refine ⟨by simp [op_add, _binop, pyAdd], by simp [op_mul, _binop, pyMul], ?_⟩
  by_cases hk : k ≤ 64
  · have hk' : (0 : Int) ≤ (k : Int) ∧ (k : Int) ≤ 64 := by
      constructor
      · exact Int.natCast_nonneg k
      · exact_mod_cast hk
    simp [op_shl, _binop, hk, hk']
  · have hk' : ¬ ((0 : Int) ≤ (k : Int) ∧ (k : Int) ≤ 64) := by
      push_neg
      intro _
      omega
    simp [op_shl, _binop, hk, hk']

/-- C6 (confirmed): pushing `v₁ … vₙ` then `n` and executing `a` builds
the array `[v₁, …, vₙ]` (original push order); `l` on it yields `n`;
and for `0 ≤ i < n`, pushing `i` and executing `g` yields `vᵢ₊₁`
(`vs.getD i` with head-as-top stacks). -/
theorem C6_array_roundtrip (vs s0 : List Value) (s : VMState) :
    op_make_array { s with stack := VInt (vs.length : Int) :: (vs.reverse ++ s0) } =
      .ok { s with stack := VArr vs :: s0 } ∧
    op_length { s with stack := VArr vs :: s0 } =
      .ok { s with stack := VInt (vs.length : Int) :: s0 } ∧
    ∀ i : Nat, i < vs.length →
      op_get_index { s with stack := VInt (i : Int) :: VArr vs :: s0 } =
        .ok { s with stack := vs.getD i (VInt 0) :: s0 } := by
  refine ⟨?_, by simp [op_length], ?_⟩
  · have hlen : ¬ ((vs.length : Int) < 0 ∨
        ((vs.reverse ++ s0).length : Int) < (vs.length : Int)) := by
      simp only [List.length_append, List.length_reverse]
      push_neg
      refine ⟨Int.natCast_nonneg _, ?_⟩
      push_cast
      omega
    have htake : (vs.reverse ++ s0).take vs.length = vs.reverse := by
      conv_lhs => rw [← List.length_reverse vs]
      exact List.take_left _ _
    have hdrop : (vs.reverse ++ s0).drop vs.length = s0 := by
      conv_lhs => rw [← List.length_reverse vs]
      exact List.drop_left _ _
    simp [op_make_array, hlen, htake, hdrop]
  · intro i hi
    have hb : ¬ (((i : Nat) : Int) < 0 ∨ ((vs.length : Int) ≤ ((i : Nat) : Int))) := by
      push_neg
      constructor
      · exact Int.natCast_nonneg _
      · exact_mod_cast hi
    simp [op_get_index, hb]
    try exact hi

/-- Witness for C6_array_roundtrip at `vs = [10, 20]`, `i = 1`. -/
theorem C6_array_roundtrip_witness :
    op_get_index { initState with
        stack := VInt ((1 : Nat) : Int) :: VArr [VInt 10, VInt 20] :: [] } =
      .ok { initState with stack := [VInt 10, VInt 20].getD 1 (VInt 0) :: [] } :=
  (C6_array_roundtrip [VInt 10, VInt 20] [] initState).2.2 1 (by decide)

def progC7 : String := "\"HI\" 0 S 0 B 0 g P 1 g P H"

/-- C7 (corrected part): the claim says the program halts successfully
printing 72 then 73; in fact the first `g` consumes the array it
indexes, so after `P` prints 72 the stack holds only the literal `1`
and the second `g` fails with a stack-underflow runtime error, the run
returning no result. -/
theorem C7_counterexample :
    execute 60 [] [] progC7 =
      .ran (.errored 'g'
        { initState with stack := [VInt 1],
                         memory := [((0 : Int), VArr [VInt 72, VInt 73])],
                         pc := 9,
                         out := [OutEvent.outInt 72] }) := by decide

/-- C7 (amended): the program prints the single line 72 and then halts
with a runtime error at the second `g` (token index 9), because `g`
popped the buffer array the first time; the output is `72\n` only. -/
theorem C7_prints_72_then_errors :
    ∃ s : VMState, execute 60 [] [] progC7 = .ran (.errored 'g' s) ∧
      s.out = [OutEvent.outInt 72] ∧ s.stack = [VInt 1] :=
  ⟨{ initState with stack := [VInt 1],
                    memory := [((0 : Int), VArr [VInt 72, VInt 73])],
                    pc := 9,
                    out := [OutEvent.outInt 72] },
   by decide, by decide, by decide⟩

/-- C8 (confirmed): for every value `v` and integer address `a`,
pushing `v` then `a` and running `T`, then pushing `a` and running `F`,
always succeeds, leaves `v` on top of the stack, and memory at every
address other than `a` reads as before. -/
theorem C8_store_load_roundtrip (v : Value) (a : Int) (s : VMState) :
    op_store { s with stack := VInt a :: v :: s.stack } =
      .ok { s with memory := mset s.memory a v } ∧
    op_load { s with stack := VInt a :: s.stack, memory := mset s.memory a v } =
      .ok { s with stack := v :: s.stack, memory := mset s.memory a v } ∧
    ∀ x : Int, x ≠ a → mget (mset s.memory a v) x = mget s.memory x := by
  refine ⟨by simp [op_store], ?_, ?_⟩
  · have hg : mget (mset s.memory a v) a = some v := by
      simp [mget, mset]
    simp [op_load, hg]
  · intro x hx
    simp only [mget, mset]
    rw [List.find?_cons_of_neg]
    simp
    exact fun hax => absurd hax.symm hx

/-- Witness for C8_store_load_roundtrip at `v = 7`, `a = 0`, `x = 1`. -/
theorem C8_store_load_roundtrip_witness :
    op_store { initState with stack := VInt 0 :: VInt 7 :: initState.stack } =
      .ok { initState with memory := mset initState.memory 0 (VInt 7) } ∧
    mget (mset initState.memory 0 (VInt 7)) 1 = mget initState.memory 1 :=
  ⟨(C8_store_load_roundtrip (VInt 7) 0 initState).1,
   (C8_store_load_roundtrip (VInt 7) 0 initState).2.2 1 (by decide)⟩

/-- C9 (corrected part): tokenizing the input `"AB` — an opening quote
never closed — does NOT fail: it produces a BUFFER token holding the
code points of `AB`. -/
theorem C9_counterexample :
    tokenize (String.toList "\"AB") 0 = .ok [Token.BUFFER [65, 66]] := by
  rfl

/-- C9 (amended): an unterminated string literal is not a lexical
error: for any opening quote followed only by non-quote characters,
tokenization succeeds and emits one BUFFER token carrying the code
points of everything after the quote. -/
theorem C9_unterminated_string_accepted (u : List Char) (i : Nat)
    (h : ∀ c ∈ u, c ≠ '"') :
    tokenize ('"' :: u) i =
      .ok [Token.BUFFER (u.map (fun ch => (ch.toNat : Int)))] := by
  have ht : u.takeWhile (· != '"') = u := by
    rw [List.takeWhile_eq_self_iff]
    intro c hc
    simpa using h c hc
  have hd : u.dropWhile (· != '"') = [] := by
    rw [List.dropWhile_eq_nil_iff]
    intro c hc
    simpa using h c hc
  unfold tokenize
  simp only [List.length_cons]
  unfold tokenizeF
  simp [ht, hd]

/-- Witness for C9_unterminated_string_accepted on the input `"AB`. -/
theorem C9_unterminated_string_accepted_witness :
    tokenize ('"' :: String.toList "AB") 0 =
      .ok [Token.BUFFER ((String.toList "AB").map (fun ch => (ch.toNat : Int)))] :=
  C9_unterminated_string_accepted (String.toList "AB") 0 (by decide)

/-- C10 (confirmed): `!` on an array does not fail: it pops the array
and pushes 1 when the array is empty, 0 when it is non-empty (Python
truthiness of lists). -/
theorem C10_not_on_array (l rest : List Value) (s : VMState) :
    op_not { s with stack := VArr l :: rest } =
      .ok { s with stack := VInt (if l = [] then 1 else 0) :: rest } := by
  simp [op_not]

end ALPHA_2

end ELI
